import Mathlib

/-!
Verification of the object-identity resolution and response-parsing pipeline
of the museum digitization scripts (`gemini_csv_enriched_generator.py`,
`gemini_museum_caption_generator.py`, `merge_deduplicate_excel.py`).

Strings are modelled as Lean `String` values; the string operations of the
source (Python `str.strip`, `str.split`, `str.join`, `str.upper`, `str.lower`,
`str.startswith`, `str.lstrip`, `str.rstrip`) are embedded as executable
functions over `List Char`, matching Python semantics on each character.
Case mapping (`upper`/`lower`) is modelled as the character-wise simple
Unicode case mapping over Basic Latin, Latin-1 Supplement and Latin
Extended-A (plus the Kelvin and Angstrom signs for `lower`) and the identity
elsewhere. This covers every character of the scripts' label schemas
(including `NAGŁÓWEK`, `ANTRAŠTĖ`, `APRAŠYMAS`) and unwanted phrases
(including `š`, `č`, `ę`). Python's three multi-character full-case
expansions in the covered ranges (upper of `ß` and of U+0149, lower of
U+0130) cannot be expressed character-wise and are left unchanged; none of
them can flip a prefix match against the program's fixed markers or phrases,
whose texts contain no `SS`, no modifier-apostrophe sequence, and whose `i`
is never followed by a combining dot.
-/

namespace MuseumPipeline

/-- Python whitespace predicate: the set of characters stripped by `str.strip()`
and recognised by `str.isspace()` (ASCII whitespace, the C1 control block used
as file separators, NEL, NBSP and the Unicode space separators). -/
def pyIsSpace (c : Char) : Bool :=
  let n := c.toNat
  decide (9 ≤ n) && decide (n ≤ 13) ||
  decide (28 ≤ n) && decide (n ≤ 31) ||
  decide (n = 32) || decide (n = 133) || decide (n = 160) || decide (n = 0x1680) ||
  decide (0x2000 ≤ n) && decide (n ≤ 0x200A) ||
  decide (n = 0x2028) || decide (n = 0x2029) || decide (n = 0x202F) ||
  decide (n = 0x205F) || decide (n = 0x3000)

/-- Python `str.strip()`: drop leading and trailing whitespace. -/
def pyStrip (l : List Char) : List Char :=
  ((l.dropWhile pyIsSpace).reverse.dropWhile pyIsSpace).reverse

/-- Character-wise `str.upper()`: the simple Unicode uppercase mapping on
Basic Latin (`a`–`z`), Latin-1 Supplement (`µ` to Greek capital Mu, `à`–`þ`
except `÷`, `ÿ` to `Ÿ`) and Latin Extended-A (the even/odd case pairs, with
the exceptions `ı` to `I` and `ſ` to `S`); identity elsewhere. Verified
against Python character by character over U+0000–U+017F; the only
divergences are Python's multi-character expansions for `ß` and U+0149. -/
def pyUpperChar (c : Char) : Char :=
  let n := c.toNat
  if 0x61 ≤ n ∧ n ≤ 0x7A then Char.ofNat (n - 32)
  else if n = 0xB5 then Char.ofNat 0x39C
  else if 0xE0 ≤ n ∧ n ≤ 0xFE ∧ n ≠ 0xF7 then Char.ofNat (n - 32)
  else if n = 0xFF then Char.ofNat 0x178
  else if n = 0x131 then Char.ofNat 0x49
  else if n = 0x17F then Char.ofNat 0x53
  else if 0x100 ≤ n ∧ n ≤ 0x137 ∧ n % 2 = 1 then Char.ofNat (n - 1)
  else if 0x139 ≤ n ∧ n ≤ 0x148 ∧ n % 2 = 0 then Char.ofNat (n - 1)
  else if 0x14A ≤ n ∧ n ≤ 0x177 ∧ n % 2 = 1 then Char.ofNat (n - 1)
  else if 0x17A ≤ n ∧ n ≤ 0x17E ∧ n % 2 = 0 then Char.ofNat (n - 1)
  else c

/-- Character-wise `str.lower()`: the simple Unicode lowercase mapping on
Basic Latin (`A`–`Z`), Latin-1 Supplement (`À`–`Þ` except `×`), Latin
Extended-A (`Ÿ` to `ÿ`, the even/odd case pairs) and the Kelvin and Angstrom
signs; identity elsewhere. Verified against Python character by character
over U+0000–U+017F, U+212A and U+212B; the only divergence is Python's
two-character lowercase of U+0130, kept unchanged here. -/
def pyLowerChar (c : Char) : Char :=
  let n := c.toNat
  if 0x41 ≤ n ∧ n ≤ 0x5A then Char.ofNat (n + 32)
  else if 0xC0 ≤ n ∧ n ≤ 0xDE ∧ n ≠ 0xD7 then Char.ofNat (n + 32)
  else if n = 0x178 then Char.ofNat 0xFF
  else if n = 0x130 then c
  else if 0x100 ≤ n ∧ n ≤ 0x137 ∧ n % 2 = 0 then Char.ofNat (n + 1)
  else if 0x139 ≤ n ∧ n ≤ 0x148 ∧ n % 2 = 1 then Char.ofNat (n + 1)
  else if 0x14A ≤ n ∧ n ≤ 0x177 ∧ n % 2 = 0 then Char.ofNat (n + 1)
  else if 0x179 ≤ n ∧ n ≤ 0x17D ∧ n % 2 = 1 then Char.ofNat (n + 1)
  else if n = 0x212A then Char.ofNat 0x6B
  else if n = 0x212B then Char.ofNat 0xE5
  else c

/-- Python `str.upper()` on character lists. -/
def pyUpper (l : List Char) : List Char := l.map pyUpperChar

/-- Python `str.lower()` on character lists. -/
def pyLower (l : List Char) : List Char := l.map pyLowerChar

/-- Python `str.startswith(pattern)` on character lists:
`listStartsWith pat s` is true when `pat` is an initial run of `s`. -/
def listStartsWith : List Char → List Char → Bool
  | [], _ => true
  | _ :: _, [] => false
  | a :: pat, b :: s => a = b && listStartsWith pat s

/-- Python `s.split(c)` for a one-character separator: always returns at least
one (possibly empty) piece, and one extra piece per separator occurrence. -/
def splitChar (c : Char) : List Char → List (List Char)
  | [] => [[]]
  | a :: rest =>
    let r := splitChar c rest
    if a = c then [] :: r else (a :: r.headI) :: r.tail

/-- Python `c.join(pieces)` for a one-character separator. -/
def joinChar (c : Char) : List (List Char) → List Char
  | [] => []
  | [x] => x
  | x :: y :: rest => x ++ c :: joinChar c (y :: rest)

/-- Python `str.lstrip(',:.')` as used in `_clean_caption`. -/
def lstripPunct (l : List Char) : List Char :=
  l.dropWhile (fun c => c = ',' || c = ':' || c = '.')

/-- Python `str.rstrip('.,;!?')` as used in `_clean_caption`. -/
def rstripPunct (l : List Char) : List Char :=
  (l.reverse.dropWhile (fun c => c = '.' || c = ',' || c = ';' || c = '!' || c = '?')).reverse

/-!
## Identity resolver (`gemini_csv_enriched_generator.py`)

`load_and_prepare_data` (lines 63–99) computes, per row,
`lookup_key = t1.strip().replace('/', '-').split(' ')[0]`; the spec names this
normalisation `canonicalize_id`. The frame is then deduplicated on
`lookup_key` with `keep='first'` and turned into a dictionary.
-/

/-- `canonicalize_id` on character lists: strip surrounding whitespace, replace
every `/` by `-`, keep the part before the first `' '` (from
`load_and_prepare_data`, lines 74–81). -/
def canonChars (l : List Char) : List Char :=
  ((pyStrip l).map (fun c => if c = '/' then '-' else c)).takeWhile (fun c => c ≠ ' ')

/-- `canonicalize_id` on strings. -/
def canonicalize_id (s : String) : String := ⟨canonChars s.data⟩

/-- One spreadsheet row after `pd.read_csv(dtype=str).fillna("N/A")`: the `t1`
ID cell and the three metadata cells used by the generator. -/
structure Row where
  t1 : String
  T3 : String
  T5 : String
  T14 : String
  deriving DecidableEq, Repr

/-- The metadata record stored per lookup key. -/
structure Meta where
  material : String
  dimensions : String
  date : String
  deriving DecidableEq, Repr

/-- Metadata extracted from a row (`load_and_prepare_data`, lines 89–94). -/
def metaOf (r : Row) : Meta := ⟨r.T3, r.T5, r.T14⟩

/-- The row's lookup key (`load_and_prepare_data`, lines 74–81). -/
def lookupKeyRow (r : Row) : String := canonicalize_id r.t1

/-- `df.drop_duplicates(subset='lookup_key', keep='first')`: keep each row whose
lookup key has not occurred earlier; `seen` is the set of keys already kept. -/
def dedupFirstAux (seen : List String) : List Row → List Row
  | [] => []
  | r :: rest =>
    if lookupKeyRow r ∈ seen then dedupFirstAux seen rest
    else r :: dedupFirstAux (lookupKeyRow r :: seen) rest

/-- The deduplicated frame `df_unique` (`load_and_prepare_data`, line 84). -/
def dedupFirst (rows : List Row) : List Row := dedupFirstAux [] rows

/-- The dictionary `data_map` built from `df_unique` (lines 87–94), read at a
key: the deduplicated rows have pairwise-distinct lookup keys, so the
insertion loop stores the unique matching row's metadata. -/
def buildLookup (rows : List Row) (k : String) : Option Meta :=
  ((dedupFirst rows).find? (fun r => lookupKeyRow r == k)).map metaOf

/-!
## Image grouping (`_group_images_by_id`, lines 200–217) and the
metadata lookup key (`_process_objects`, line 228).
-/

/-- Index of the last `'.'` in a name (`str.rfind('.')` as used by
`pathlib.Path.suffix`), as an accumulator recursion. -/
def lastDotAux : List Char → Nat → Option Nat → Option Nat
  | [], _, acc => acc
  | c :: rest, i, acc => lastDotAux rest (i + 1) (if c = '.' then some i else acc)

/-- `pathlib.Path(name).suffix`: the final `'.'`-suffix of the name, empty when
the last dot is the first character or the last character. -/
def pySuffix (name : List Char) : List Char :=
  match lastDotAux name 0 none with
  | none => []
  | some i => if 0 < i ∧ i + 1 < name.length then name.drop i else []

/-- The image-type filter of `_group_images_by_id` (line 209):
`Path(filename).suffix.lower() in {".jpg", ".jpeg", ".png"}`. -/
def isImageName (f : String) : Bool :=
  let sfx := pyLower (pySuffix f.data)
  sfx = ".jpg".data || sfx = ".jpeg".data || sfx = ".png".data

/-- `'-'.join(filename.split('-')[:4])` (line 212): the group key of a file. -/
def objectIdOf (f : String) : String :=
  ⟨joinChar '-' ((splitChar '-' f.data).take 4)⟩

/-- `os.path.join(directory, filename)` for the shapes occurring here. -/
def pathJoin (dir f : String) : String :=
  if dir = "" then f
  else if dir.data.getLast? = some '/' then dir ++ f
  else dir ++ "/" ++ f

/-- `defaultdict(list)` append preserving key insertion order. -/
def addToGroup (groups : List (String × List String)) (k v : String) :
    List (String × List String) :=
  match groups with
  | [] => [(k, [v])]
  | (k', vs) :: rest =>
    if k' = k then (k', vs ++ [v]) :: rest else (k', vs) :: addToGroup rest k v

/-- `_group_images_by_id(directory)` over the directory listing `files`
(lines 200–217). The `try/except IndexError` of the source is not modelled
because neither `split` nor list slicing can raise `IndexError`. -/
def groupImagesById (dir : String) (files : List String) :
    List (String × List String) :=
  files.foldl
    (fun g f => if isImageName f then addToGroup g (objectIdOf f) (pathJoin dir f) else g)
    []

/-- `'-'.join(object_id.split('-')[:3])` (`_process_objects`, line 228): the
metadata lookup key derived from a group key. -/
def lookupKeyOfGroup (object_id : String) : String :=
  ⟨joinChar '-' ((splitChar '-' object_id.data).take 3)⟩

/-!
## Structured response parser, CSV-enriched variant
(`gemini_csv_enriched_generator.py`, `_parse_response`, lines 145–177)
-/

/-- `LANGUAGE_MAPPING` of `gemini_csv_enriched_generator.py` (line 57):
`(language, headline tag, description tag)`. -/
def LANGUAGE_MAPPING_CSV : List (String × String × String) :=
  [("Deutsch", "TITEL", "BESCHREIBUNG"), ("English", "HEADLINE", "DESCRIPTION")]

/-- `LANGUAGE_MAPPING` of `gemini_museum_caption_generator.py` (lines 43–48):
`(language, headline tag, description tag)`. -/
def LANGUAGE_MAPPING_MUSEUM : List (String × String × String) :=
  [("Deutsch", "TITEL", "BESCHREIBUNG"), ("English", "HEADLINE", "DESCRIPTION"),
   ("Polski", "NAGŁÓWEK", "OPIS"), ("Lietuvių", "ANTRAŠTĖ", "APRAŠYMAS")]

/-- `f'{tag.upper()}:'`: the colon-terminated, upper-cased label marker. -/
def mkMark (tag : String) : List Char := pyUpper tag.data ++ [':']

/-- `text.strip().split('\n')`: the line list both parsers iterate over. -/
def linesOfText (text : String) : List (List Char) :=
  splitChar '\n' (pyStrip text.data)

/-- One loop iteration of the CSV-enriched `_parse_response` (lines 158–174).
State: `(headline, description, in_description)`. -/
def stepC (hM dM : List Char) (s : List Char × List Char × Bool)
    (line : List Char) : List Char × List Char × Bool :=
  if pyStrip line = [] then s
  else if listStartsWith hM (pyUpper (pyStrip line)) then
    (pyStrip ((pyStrip line).drop hM.length), s.2.1, false)
  else if listStartsWith dM (pyUpper (pyStrip line)) then
    (s.1, pyStrip ((pyStrip line).drop dM.length), true)
  else if s.2.2 then (s.1, s.2.1 ++ ' ' :: pyStrip line, true)
  else s

/-- The CSV-enriched parser's loop over all lines. -/
def csvFold (hM dM : List Char) (s : List Char × List Char × Bool)
    (lines : List (List Char)) : List Char × List Char × Bool :=
  lines.foldl (stepC hM dM) s

/-- `return headline or "Untitled", description.strip() or
"Description not available."` (line 177). -/
def finalizeCSV (p : List Char × List Char × Bool) : String × String :=
  (if p.1 = [] then "Untitled" else ⟨p.1⟩,
   if pyStrip p.2.1 = [] then "Description not available." else ⟨pyStrip p.2.1⟩)

/-- The CSV-enriched `_parse_response` on an already-split line list. -/
def parseCSVLines (htag dtag : String) (lines : List (List Char)) : String × String :=
  finalizeCSV (csvFold (mkMark htag) (mkMark dtag) ([], [], false) lines)

/-- The CSV-enriched `_parse_response(text, h_tag, d_tag)`. -/
def parseCSV (text htag dtag : String) : String × String :=
  parseCSVLines htag dtag (linesOfText text)

/-!
## Structured response parser, museum variant
(`gemini_museum_caption_generator.py`, `_parse_response` lines 169–204 and
`_clean_caption` lines 206–230)
-/

/-- `FALLBACK_CAPTIONS` (lines 51–57). -/
def FALLBACK_CAPTIONS : List String :=
  ["a detailed scene with multiple visual elements and characters",
   "a composition featuring people in an environment with various details",
   "a visual narrative showing characters and their surroundings",
   "an image depicting figures in a setting with atmospheric elements",
   "a scene with characters, environment, and compositional details"]

/-- `UNWANTED_PHRASES` (lines 60–73). -/
def UNWANTED_PHRASES : List String :=
  ["this image shows", "in this scene", "in the image",
   "the image depicts", "here we see", "this is a",
   "dieses bild zeigt", "in dieser szene", "im bild ist",
   "die abbildung zeigt", "auf diesem bild", "man sieht hier",
   "ten obraz przedstawia", "na tej scenie", "na zdjęciu",
   "zdjęcie przedstawia", "tu widzimy", "jest to",
   "šis paveikslas rodo", "šioje scenoje", "nuotraukoje",
   "nuotrauka vaizduoja", "čia matome", "tai yra"]

/-- `UNWANTED_PHRASES` as character lists. -/
def unwantedChars : List (List Char) := UNWANTED_PHRASES.map String.data

/-- The phrase-removal loop of `_clean_caption` (lines 212–221). The loop keeps
two variables, `caption` and `caption_lower`; after a match the source updates
`caption_lower` from the stripped caption **before** the `lstrip(',:.')` is
applied to `caption`, so the two can fall out of sync — the embedding keeps
both to stay faithful. -/
def stripLoopRun : List (List Char) → List Char → List Char → List Char
  | [], cap, _ => cap
  | p :: ps, cap, capLow =>
    if listStartsWith p capLow then
      let cap1 := pyStrip (cap.drop p.length)
      stripLoopRun ps (lstripPunct cap1) (pyLower cap1)
    else stripLoopRun ps cap capLow

/-- The fixed minimum-length fallback of `_clean_caption` (line 228). -/
def cleanFallbackChars : List Char := "a detailed scene with visual elements".data

/-- The caption after the phrase-removal loop and the trailing-punctuation
strip of `_clean_caption` (lines 209–224), before the minimum-length check. -/
def cleanCore (text : List Char) : List Char :=
  rstripPunct (stripLoopRun unwantedChars (pyStrip text) (pyLower (pyStrip text)))

/-- `_clean_caption(text)` (lines 206–230) on character lists: the cleaned
caption, or the fixed fallback when the cleaned caption is empty or shorter
than 10 characters. -/
def cleanChars (text : List Char) : List Char :=
  if cleanCore text = [] ∨ (cleanCore text).length < 10 then cleanFallbackChars
  else cleanCore text

/-- `_clean_caption` on strings. -/
def clean_caption (text : String) : String := ⟨cleanChars text.data⟩

/-- One loop iteration of the museum `_parse_response` (lines 183–198).
State: `(headline, description)`; "in description" is encoded by the source as
`description` being non-empty, and there is an extra branch taking the first
unlabeled line after a headline as the description. -/
def stepM (hM dM : List Char) (s : List Char × List Char)
    (line : List Char) : List Char × List Char :=
  if listStartsWith hM (pyUpper (pyStrip line)) then
    (pyStrip ((pyStrip line).drop hM.length), s.2)
  else if listStartsWith dM (pyUpper (pyStrip line)) then
    (s.1, pyStrip ((pyStrip line).drop dM.length))
  else if s.1 ≠ [] ∧ s.2 = [] then (s.1, pyStrip line)
  else if s.2 ≠ [] then (s.1, s.2 ++ ' ' :: pyStrip line)
  else s

/-- The museum parser's loop over all lines. -/
def museumFold (hM dM : List Char) (s : List Char × List Char)
    (lines : List (List Char)) : List Char × List Char :=
  lines.foldl (stepM hM dM) s

/-- `random.choice(FALLBACK_CAPTIONS)` modelled by an externally supplied
index `rnd`, reduced modulo the list length; the `getD` default is never
reached because the index is below the length. -/
def fallbackAt (rnd : Nat) : List Char :=
  (FALLBACK_CAPTIONS.getD (rnd % FALLBACK_CAPTIONS.length) "").data

/-- Lines 200–204 of the museum `_parse_response`: clean a non-empty field,
else substitute the fallback ("Untitled Scene" / a random fallback caption). -/
def finalizeMuseum (rnd : Nat) (p : List Char × List Char) : String × String :=
  (if p.1 = [] then "Untitled Scene" else ⟨cleanChars p.1⟩,
   if p.2 = [] then ⟨fallbackAt rnd⟩ else ⟨cleanChars p.2⟩)

/-- The museum `_parse_response` on an already-split line list. -/
def parseMuseumLines (rnd : Nat) (htag dtag : String)
    (lines : List (List Char)) : String × String :=
  finalizeMuseum rnd (museumFold (mkMark htag) (mkMark dtag) ([], []) lines)

/-- The museum `_parse_response(text, expected_headline_tag,
expected_description_tag)`, with `rnd` feeding `random.choice`. -/
def parseMuseum (rnd : Nat) (text htag dtag : String) : String × String :=
  parseMuseumLines rnd htag dtag (linesOfText text)

/-- The configured fallback strings of both parsers: the five random museum
fallbacks, the cleaning minimum-length fallback, and the CSV parser's fixed
description fallback. -/
def fallbackStrings : List String :=
  FALLBACK_CAPTIONS ++ ["a detailed scene with visual elements", "Description not available."]

/-!
## Lemmas about the split/join primitives
-/

theorem splitChar_ne_nil (c : Char) : ∀ l : List Char, splitChar c l ≠ []
  | [] => by simp [splitChar]
  | a :: rest => by
      simp only [splitChar]
      split <;> simp

theorem splitChar_append_of_not_mem (c : Char) (t : List Char) :
    ∀ x : List Char, c ∉ x →
      splitChar c (x ++ t) = (x ++ (splitChar c t).headI) :: (splitChar c t).tail
  | [], _ => by
      obtain ⟨s, ss, h⟩ := List.exists_cons_of_ne_nil (splitChar_ne_nil c t)
      simp [h]
  | a :: x', hx => by
      have ha : a ≠ c := fun h => hx (h ▸ List.mem_cons_self a x')
      have hx' : c ∉ x' := fun h => hx (List.mem_cons_of_mem a h)
      have ih := splitChar_append_of_not_mem c t x' hx'
      simp only [List.cons_append, splitChar, List.append_eq, ih, if_neg ha,
        List.headI_cons, List.tail_cons]

theorem splitChar_of_not_mem (c : Char) (x : List Char) (hx : c ∉ x) :
    splitChar c x = [x] := by
  have h := splitChar_append_of_not_mem c [] x hx
  simpa [splitChar] using h

theorem splitChar_joinChar (c : Char) :
    ∀ xs : List (List Char), xs ≠ [] → (∀ s ∈ xs, c ∉ s) →
      splitChar c (joinChar c xs) = xs
  | [], h, _ => absurd rfl h
  | [x], _, hall => by
      simpa [joinChar] using splitChar_of_not_mem c x (hall x (List.mem_singleton_self x))
  | x :: y :: rest, _, hall => by
      have hx : c ∉ x := hall x (List.mem_cons_self x _)
      have ih := splitChar_joinChar c (y :: rest) (by simp)
        (fun s hs => hall s (List.mem_cons_of_mem x hs))
      have hstep : splitChar c (c :: joinChar c (y :: rest)) = [] :: (y :: rest) := by
        simp [splitChar, ih]
      simp only [joinChar]
      rw [splitChar_append_of_not_mem c _ x hx, hstep]
      simp

/-!
## Claim C1

The spec and the code's own comment say that filenames with fewer than four
hyphen-separated segments are silently excluded from all groups. The code
cannot do that: `filename.split('-')[:4]` never raises `IndexError` (neither
`split` nor slicing raises), so the `except IndexError: continue` guard at
lines 214–216 is dead and every image file is grouped — a file with fewer
than four segments is grouped under the join of all of its segments.
-/

/-- Claim C1, evaluation at the failing input: the two-segment image filename
`a-b.jpg` is **not** excluded — `_group_images_by_id` files it under the group
key `a-b.jpg` (the join of both of its segments), while a well-formed
filename is grouped under its first four segments as the claim states. -/
theorem claimC1_eval :
    groupImagesById "d" ["a-b.jpg"] = [("a-b.jpg", ["d/a-b.jpg"])] ∧
    groupImagesById "d" ["A-B-C-D-view1.jpg", "A-B-C-D-view2.jpg"] =
      [("A-B-C-D", ["d/A-B-C-D-view1.jpg", "d/A-B-C-D-view2.jpg"])] := by
  exact ⟨by decide, by decide⟩

/-!
## Claim C2
-/

/-- Claim C2: for every four-segment group key (the hyphen-join of four
hyphen-free segments), the metadata lookup key computed by `_process_objects`
(line 228) is exactly the join of the first three of those segments; in
particular the group key `A-B-C-D` yields the lookup key `A-B-C`. -/
theorem claimC2_lookup_key_first_three :
    (∀ s1 s2 s3 s4 : List Char, '-' ∉ s1 → '-' ∉ s2 → '-' ∉ s3 → '-' ∉ s4 →
      lookupKeyOfGroup ⟨joinChar '-' [s1, s2, s3, s4]⟩ = ⟨joinChar '-' [s1, s2, s3]⟩) ∧
    lookupKeyOfGroup "A-B-C-D" = "A-B-C" := by
  constructor
  · intro s1 s2 s3 s4 h1 h2 h3 h4
    have hsplit : splitChar '-' (joinChar '-' [s1, s2, s3, s4]) = [s1, s2, s3, s4] :=
      splitChar_joinChar '-' [s1, s2, s3, s4] (by simp) (by
        intro s hs
        simp only [List.mem_cons, List.not_mem_nil, or_false] at hs
        rcases hs with rfl | rfl | rfl | rfl <;> assumption)
    simp [lookupKeyOfGroup, hsplit]
  · decide

/-- Witness for claim C2 at concrete hyphen-free segments. -/
theorem claimC2_witness :
    lookupKeyOfGroup ⟨joinChar '-' ["1".data, "1996".data, "6864".data, "000".data]⟩ =
      ⟨joinChar '-' ["1".data, "1996".data, "6864".data]⟩ :=
  claimC2_lookup_key_first_three.1 _ _ _ _ (by decide) (by decide) (by decide) (by decide)

/-!
## Lemmas about stripping and canonicalization
-/

theorem mem_of_mem_dropWhile {p : Char → Bool} {a : Char} :
    ∀ l : List Char, a ∈ l.dropWhile p → a ∈ l := by
  intro l
  induction l with
  | nil => simp
  | cons b t ih =>
      by_cases hb : p b
      · intro h
        rw [List.dropWhile_cons, if_pos hb] at h
        exact List.mem_cons_of_mem b (ih h)
      · intro h
        rwa [List.dropWhile_cons, if_neg hb] at h

theorem mem_of_mem_pyStrip {a : Char} {l : List Char} (h : a ∈ pyStrip l) : a ∈ l := by
  unfold pyStrip at h
  rw [List.mem_reverse] at h
  have h2 := mem_of_mem_dropWhile _ h
  rw [List.mem_reverse] at h2
  exact mem_of_mem_dropWhile _ h2

theorem dropWhile_eq_self_of {p : Char → Bool} :
    ∀ {l : List Char}, (∀ a ∈ l, p a = false) → l.dropWhile p = l
  | [], _ => rfl
  | b :: t, h => by
      rw [List.dropWhile_cons, if_neg]
      simp [h b (List.mem_cons_self b t)]

theorem mem_of_mem_takeWhileP {p : Char → Bool} {a : Char} :
    ∀ l : List Char, a ∈ l.takeWhile p → a ∈ l := by
  intro l
  induction l with
  | nil => simp
  | cons b t ih =>
      by_cases hb : p b
      · intro h
        rw [List.takeWhile_cons, if_pos hb] at h
        rcases List.mem_cons.mp h with rfl | h2
        · exact List.mem_cons_self a t
        · exact List.mem_cons_of_mem b (ih h2)
      · intro h
        rw [List.takeWhile_cons, if_neg hb] at h
        simp at h

theorem pyStrip_eq_self {l : List Char} (h : ∀ a ∈ l, pyIsSpace a = false) :
    pyStrip l = l := by
  have h1 : l.dropWhile pyIsSpace = l := dropWhile_eq_self_of h
  have h2 : l.reverse.dropWhile pyIsSpace = l.reverse :=
    dropWhile_eq_self_of (fun a ha => h a (List.mem_reverse.mp ha))
  unfold pyStrip
  rw [h1, h2, List.reverse_reverse]

/-- Every character of `canonicalize_id`'s output is not a space and descends
from an input character: either it is the dash replacing a slash, or it is the
input character itself. -/
theorem canonChars_spec {l : List Char} {a : Char} (h : a ∈ canonChars l) :
    a ≠ ' ' ∧ ∃ b ∈ l, (b = '/' ∧ a = '-') ∨ (b ≠ '/' ∧ a = b) := by
  unfold canonChars at h
  have hsp := List.mem_takeWhile_imp h
  have hmem := mem_of_mem_takeWhileP _ h
  rw [List.mem_map] at hmem
  obtain ⟨b, hb, hfb⟩ := hmem
  refine ⟨by simpa using hsp, b, mem_of_mem_pyStrip hb, ?_⟩
  by_cases hslash : b = '/'
  · left
    exact ⟨hslash, by rw [← hfb, if_pos hslash]⟩
  · right
    exact ⟨hslash, by rw [← hfb, if_neg hslash]⟩

theorem canonChars_fixed {l : List Char}
    (h : ∀ a ∈ l, pyIsSpace a = false ∧ a ≠ '/') : canonChars l = l := by
  unfold canonChars
  rw [pyStrip_eq_self (fun a ha => (h a ha).1)]
  have hmap : l.map (fun c => if c = '/' then '-' else c) = l := by
    rw [List.map_congr_left (fun a ha => if_neg ((h a ha).2))]
    exact List.map_id' l
  rw [hmap]
  refine List.takeWhile_eq_self_iff.mpr ?_
  intro a ha
  have hsp := (h a ha).1
  have hne : a ≠ ' ' := by
    intro he
    rw [he] at hsp
    exact absurd hsp (by decide)
  simp [hne]

theorem slash_not_mem_canonChars (l : List Char) : '/' ∉ canonChars l := by
  intro h
  obtain ⟨-, b, -, hcase⟩ := canonChars_spec h
  rcases hcase with ⟨-, habs⟩ | ⟨hne, heq⟩
  · exact absurd habs (by decide)
  · exact hne heq.symm

/-!
## Claim C3

The claim asserts idempotence of `canonicalize_id` for **every** input. That
fails: for `"a\t b"` the first pass keeps the tab (`strip` only trims the
ends and the space-split cuts before the tab is trailing), and the second
pass then strips it, so `canon(canon("a\t b")) = "a" ≠ "a\t" = canon("a\t b")`.
Idempotence does hold whenever the input's only whitespace characters are
plain spaces; the `/`-elimination and the concrete example hold as claimed.
-/

/-- Claim C3, counterexample: `canonicalize_id` is not idempotent on
`"a\t b"` — the first application returns `"a\t"`, the second `"a"`. -/
theorem claimC3_counterexample :
    canonicalize_id (canonicalize_id "a\t b") ≠ canonicalize_id "a\t b" ∧
    canonicalize_id "a\t b" = "a\t" ∧ canonicalize_id "a\t" = "a" := by
  exact ⟨by decide, by decide, by decide⟩

/-- Claim C3 as amended: `canonicalize_id` is idempotent on every input whose
whitespace characters are all plain spaces `' '` (the failure needs another
whitespace character such as a tab before a space); for every input the
output contains no `'/'`; and `canonicalize_id "1/1996/6864 0" = "1-1996-6864"`. -/
theorem claimC3_amended :
    (∀ s : String, (∀ c ∈ s.data, pyIsSpace c = true → c = ' ') →
      canonicalize_id (canonicalize_id s) = canonicalize_id s) ∧
    (∀ s : String, '/' ∈ s.data → '/' ∉ (canonicalize_id s).data) ∧
    canonicalize_id "1/1996/6864 0" = "1-1996-6864" := by
  refine ⟨?_, fun s _ => slash_not_mem_canonChars s.data, by decide⟩
  intro s hws
  have hfix : canonChars (canonChars s.data) = canonChars s.data := by
    apply canonChars_fixed
    intro a ha
    obtain ⟨hnsp, b, hb, hcase⟩ := canonChars_spec ha
    rcases hcase with ⟨hb1, ha1⟩ | ⟨hb1, ha1⟩
    · rw [ha1]
      exact ⟨by decide, by decide⟩
    · have hbsp : pyIsSpace b = false := by
        by_cases habs : pyIsSpace b = true
        · exact absurd (ha1.trans (hws b hb habs)) hnsp
        · simpa using habs
      rw [ha1]
      exact ⟨hbsp, hb1⟩
  exact congrArg String.mk hfix

/-- Witness for claim C3 at a concrete space-only-whitespace input. -/
theorem claimC3_witness :
    canonicalize_id (canonicalize_id " 1/1996 a") = canonicalize_id " 1/1996 a" ∧
    '/' ∉ (canonicalize_id " 1/1996 a").data :=
  ⟨claimC3_amended.1 _ (by decide), claimC3_amended.2.1 _ (by decide)⟩

/-!
## Lemmas about `buildLookup`
-/

theorem find?_dedupFirstAux (k : String) :
    ∀ (l : List Row) (seen : List String), k ∉ seen →
      (dedupFirstAux seen l).find? (fun r => lookupKeyRow r == k) =
        l.find? (fun r => lookupKeyRow r == k)
  | [], _, _ => rfl
  | r :: rest, seen, hk => by
      by_cases hmem : lookupKeyRow r ∈ seen
      · have hne : (lookupKeyRow r == k) = false := by
          rw [beq_eq_false_iff_ne]
          intro he
          exact hk (he ▸ hmem)
        rw [dedupFirstAux, if_pos hmem, List.find?_cons_of_neg _ (by simp [hne]),
          find?_dedupFirstAux k rest seen hk]
      · rw [dedupFirstAux, if_neg hmem]
        by_cases hkey : (lookupKeyRow r == k) = true
        · rw [List.find?_cons_of_pos _ (by simp [hkey]), List.find?_cons_of_pos _ (by simp [hkey])]
        · have hnotin : k ∉ lookupKeyRow r :: seen := by
            intro hin
            rcases List.mem_cons.mp hin with he | he
            · exact hkey (by rw [he]; exact beq_self_eq_true _)
            · exact hk he
          rw [List.find?_cons_of_neg _ (by simp_all), List.find?_cons_of_neg _ (by simp_all),
            find?_dedupFirstAux k rest _ hnotin]

/-- The map built by `load_and_prepare_data` answers every key with the first
row (in frame order) whose ID canonicalizes to that key. -/
theorem buildLookup_eq_find (rows : List Row) (k : String) :
    buildLookup rows k = (rows.find? (fun r => lookupKeyRow r == k)).map metaOf := by
  unfold buildLookup dedupFirst
  rw [find?_dedupFirstAux k rows [] (by simp)]

theorem find?_middle_false {p : Row → Bool} {r : Row} (hr : p r = false) :
    ∀ l1 l2 : List Row, (l1 ++ r :: l2).find? p = (l1 ++ l2).find? p
  | [], l2 => by
      simp only [List.nil_append]
      exact List.find?_cons_of_neg _ (by simp [hr])
  | a :: l1', l2 => by
      by_cases ha : p a = true
      · rw [List.cons_append, List.cons_append, List.find?_cons_of_pos _ ha,
          List.find?_cons_of_pos _ ha]
      · rw [List.cons_append, List.cons_append,
          List.find?_cons_of_neg _ (by simp_all), List.find?_cons_of_neg _ (by simp_all),
          find?_middle_false hr l1' l2]

theorem find?_append_left {p : Row → Bool} {x : Row} :
    ∀ {l1 : List Row}, l1.find? p = some x → ∀ l2 : List Row, (l1 ++ l2).find? p = some x
  | [], h, _ => by simp at h
  | a :: l1', h, l2 => by
      by_cases ha : p a = true
      · rw [List.find?_cons_of_pos _ ha] at h
        rw [List.cons_append, List.find?_cons_of_pos _ ha]
        exact h
      · rw [List.find?_cons_of_neg _ (by simp_all)] at h
        rw [List.cons_append, List.find?_cons_of_neg _ (by simp_all)]
        exact find?_append_left h l2

theorem find?_isSome_of_mem (p : Row → Bool) :
    ∀ {l : List Row} {q : Row}, q ∈ l → p q = true → ∃ x, l.find? p = some x := by
  intro l
  induction l with
  | nil => simp
  | cons a t ih =>
      intro q hq hpq
      by_cases ha : p a = true
      · exact ⟨a, List.find?_cons_of_pos _ ha⟩
      · rcases List.mem_cons.mp hq with rfl | hqt
        · exact absurd hpq ha
        · obtain ⟨x, hx⟩ := ih hqt hpq
          exact ⟨x, by rw [List.find?_cons_of_neg _ (by simp_all)]; exact hx⟩

/-!
## Claim C4

First-occurrence-wins holds, but the claim's further assertion that the later
duplicate row's metadata "appears nowhere in the map" is false: that metadata
can enter the map through a different, non-duplicate row with another key.
-/

/-- Claim C4, counterexample: rows 1 and 2 share the canonical key `a` and
carry different metadata, so row 2 is discarded — yet row 2's metadata
`⟨m2, x, y⟩` does appear in the map, under key `b` via row 3. -/
theorem claimC4_counterexample :
    lookupKeyRow ⟨"a", "m1", "x", "y"⟩ = lookupKeyRow ⟨"a", "m2", "x", "y"⟩ ∧
    metaOf (⟨"a", "m1", "x", "y"⟩ : Row) ≠ metaOf (⟨"a", "m2", "x", "y"⟩ : Row) ∧
    buildLookup [⟨"a", "m1", "x", "y"⟩, ⟨"a", "m2", "x", "y"⟩, ⟨"b", "m2", "x", "y"⟩] "a" =
      some (metaOf (⟨"a", "m1", "x", "y"⟩ : Row)) ∧
    buildLookup [⟨"a", "m1", "x", "y"⟩, ⟨"a", "m2", "x", "y"⟩, ⟨"b", "m2", "x", "y"⟩] "b" =
      some (metaOf (⟨"a", "m2", "x", "y"⟩ : Row)) := by
  exact ⟨by decide, by decide, by decide, by decide⟩

/-- Claim C4 as amended: `build_lookup` is first-occurrence-wins — every key
is answered by the first row (in iteration order) canonicalizing to it, and a
row preceded by another row with the same canonical key contributes nothing
(deleting it leaves the map pointwise unchanged). The discarded row's
metadata may still appear in the map through a different row under another
key. -/
theorem claimC4_amended :
    (∀ (rows : List Row) (k : String),
      buildLookup rows k = (rows.find? (fun r => lookupKeyRow r == k)).map metaOf) ∧
    (∀ (pre post : List Row) (r : Row) (k : String),
      (∃ q ∈ pre, lookupKeyRow q = lookupKeyRow r) →
      buildLookup (pre ++ r :: post) k = buildLookup (pre ++ post) k) := by
  refine ⟨buildLookup_eq_find, ?_⟩
  intro pre post r k hdup
  rw [buildLookup_eq_find, buildLookup_eq_find]
  obtain ⟨q, hq, hqkey⟩ := hdup
  by_cases hk : (lookupKeyRow r == k) = true
  · have hpq : (lookupKeyRow q == k) = true := by rw [hqkey]; exact hk
    obtain ⟨x, hx⟩ := find?_isSome_of_mem (fun r => lookupKeyRow r == k) hq hpq
    rw [find?_append_left hx, find?_append_left hx]
  · rw [find?_middle_false (by simp_all) pre post]

/-- Witness for claim C4: deleting the duplicate middle row leaves the map
unchanged at the shared key. -/
theorem claimC4_witness :
    buildLookup ([⟨"a", "m1", "x", "y"⟩] ++ ⟨"a", "m2", "x", "y"⟩ :: [⟨"b", "m2", "x", "y"⟩]) "a" =
      buildLookup ([⟨"a", "m1", "x", "y"⟩] ++ [⟨"b", "m2", "x", "y"⟩]) "a" :=
  claimC4_amended.2 _ _ _ _ (by decide)

/-!
## Claim C9

`canonicalize_id` is total, but a row whose ID canonicalizes to the empty
string is **not** excluded from the lookup table: `load_and_prepare_data`
applies no emptiness filter, so the empty string becomes an ordinary key.
-/

/-- Claim C9, counterexample: a row whose ID cell is the blank string `" "`
canonicalizes to `""`, and the resulting map **does** carry `""` as a key. -/
theorem claimC9_counterexample :
    lookupKeyRow ⟨" ", "Brass", "5 cm", "1934"⟩ = "" ∧
    buildLookup [⟨" ", "Brass", "5 cm", "1934"⟩] "" =
      some ⟨"Brass", "5 cm", "1934"⟩ := by
  exact ⟨by decide, by decide⟩

/-- Claim C9 as amended: `canonicalize_id` never fails (it is a total string
function), and a record whose ID canonicalizes to `""` is retained, not
excluded: whenever some row's ID canonicalizes to `""`, the built map answers
the key `""` (with the first such row's metadata, by first-occurrence-wins). -/
theorem claimC9_amended :
    ∀ rows : List Row, (∃ r ∈ rows, lookupKeyRow r = "") →
      ∃ m : Meta, buildLookup rows "" = some m := by
  intro rows ⟨r, hr, hkey⟩
  rw [buildLookup_eq_find]
  obtain ⟨x, hx⟩ := find?_isSome_of_mem (fun r => lookupKeyRow r == "") hr (by show (lookupKeyRow r == "") = true; rw [hkey]; decide)
  exact ⟨metaOf x, by rw [hx]; rfl⟩

/-- Witness for claim C9 at the blank-ID row. -/
theorem claimC9_witness :
    ∃ m : Meta, buildLookup [⟨" ", "Brass", "5 cm", "1934"⟩] "" = some m :=
  claimC9_amended _ (by decide)

/-!
## Lemmas about the parsers' finalization
-/

theorem mk_ne_empty {l : List Char} (h : l ≠ []) : (⟨l⟩ : String) ≠ "" :=
  fun he => h (congrArg String.data he)

theorem cleanChars_length (l : List Char) : 10 ≤ (cleanChars l).length := by
  unfold cleanChars
  split
  · decide
  · next h =>
      push_neg at h
      omega

theorem cleanChars_ne_nil (l : List Char) : cleanChars l ≠ [] := by
  have := cleanChars_length l
  intro he
  rw [he] at this
  simp at this

theorem fallbackAt_length (rnd : Nat) : 10 ≤ (fallbackAt rnd).length := by
  unfold fallbackAt
  have h5 : FALLBACK_CAPTIONS.length = 5 := rfl
  rw [h5]
  have hlt : rnd % 5 < 5 := Nat.mod_lt _ (by decide)
  have hcases : rnd % 5 = 0 ∨ rnd % 5 = 1 ∨ rnd % 5 = 2 ∨ rnd % 5 = 3 ∨ rnd % 5 = 4 := by
    omega
  rcases hcases with h | h | h | h | h <;> rw [h] <;> decide

/-!
## Claim C5

The spec's parser round-trip names the museum parser's sources
(`_parse_response` with `_clean_caption`). On the given text the parser does
produce the raw fields `Foo` / `Bar baz. qux.`, but `_clean_caption` replaces
every cleaned field shorter than 10 characters by a fixed fallback, so the
returned headline is not `"Foo"`; the description is `"Bar baz. qux"` as
claimed.
-/

/-- Claim C5, counterexample: on the round-trip text the returned headline is
the minimum-length fallback, not `"Foo"` (the description is as claimed). -/
theorem claimC5_counterexample :
    (parseMuseum 0 "HEADLINE: Foo\nDESCRIPTION: Bar baz.\nqux." "HEADLINE" "DESCRIPTION").1
      ≠ "Foo" ∧
    parseMuseum 0 "HEADLINE: Foo\nDESCRIPTION: Bar baz.\nqux." "HEADLINE" "DESCRIPTION" =
      ("a detailed scene with visual elements", "Bar baz. qux") := by
  exact ⟨by decide, by decide⟩

/-- Claim C5 as amended: for every random draw, parsing
`"HEADLINE: Foo\nDESCRIPTION: Bar baz.\nqux."` with schema
`("HEADLINE","DESCRIPTION")` yields the headline
`"a detailed scene with visual elements"` — the cleaning fallback, because
`"Foo"` is shorter than the 10-character minimum — and the description
`"Bar baz. qux"` (continuation appended with one space, trailing period
stripped). -/
theorem claimC5_amended :
    ∀ rnd : Nat,
      parseMuseum rnd "HEADLINE: Foo\nDESCRIPTION: Bar baz.\nqux." "HEADLINE" "DESCRIPTION" =
        ("a detailed scene with visual elements", "Bar baz. qux") := by
  intro rnd
  unfold parseMuseum parseMuseumLines
  have hfold : museumFold (mkMark "HEADLINE") (mkMark "DESCRIPTION") ([], [])
      (linesOfText "HEADLINE: Foo\nDESCRIPTION: Bar baz.\nqux.") =
      ("Foo".data, "Bar baz. qux.".data) := by decide
  rw [hfold]
  show (if ("Foo".data : List Char) = [] then ("Untitled Scene" : String)
          else ⟨cleanChars "Foo".data⟩,
        if ("Bar baz. qux.".data : List Char) = [] then (⟨fallbackAt rnd⟩ : String)
          else ⟨cleanChars "Bar baz. qux.".data⟩) = _
  rw [if_neg (by decide), if_neg (by decide)]
  decide

/-!
## Claim C6

"The parser never raises and always returns non-empty fields" holds for both
parsers, and the returned description always has length at least 10 — but in
the museum parser a text with **no** description label can still yield a
description that is not one of the fallback strings: an unlabeled line after
a matched headline is promoted to the description.
-/

/-- Claim C6, counterexample: for
`"HEADLINE: A\nexcellent museum artifact"` no line matches the description
marker, yet the museum parser returns the description
`"excellent museum artifact"`, which is none of the configured fallback
strings. -/
theorem claimC6_counterexample :
    ((linesOfText "HEADLINE: A\nexcellent museum artifact").all
      (fun ln => listStartsWith (mkMark "DESCRIPTION") (pyUpper (pyStrip ln)) = false)) = true ∧
    (parseMuseum 0 "HEADLINE: A\nexcellent museum artifact" "HEADLINE" "DESCRIPTION").2 =
      "excellent museum artifact" ∧
    "excellent museum artifact" ∉ fallbackStrings := by
  exact ⟨by decide, by decide, by decide⟩

theorem finalizeCSV_ne_empty (p : List Char × List Char × Bool) :
    (finalizeCSV p).1 ≠ "" ∧ (finalizeCSV p).2 ≠ "" := by
  constructor
  · show (if p.1 = [] then ("Untitled" : String) else ⟨p.1⟩) ≠ ""
    by_cases h : p.1 = []
    · rw [if_pos h]; decide
    · rw [if_neg h]; exact mk_ne_empty h
  · show (if pyStrip p.2.1 = [] then ("Description not available." : String)
        else ⟨pyStrip p.2.1⟩) ≠ ""
    by_cases h : pyStrip p.2.1 = []
    · rw [if_pos h]; decide
    · rw [if_neg h]; exact mk_ne_empty h

theorem finalizeMuseum_props (rnd : Nat) (p : List Char × List Char) :
    (finalizeMuseum rnd p).1 ≠ "" ∧ 10 ≤ (finalizeMuseum rnd p).2.length := by
  constructor
  · show (if p.1 = [] then ("Untitled Scene" : String) else ⟨cleanChars p.1⟩) ≠ ""
    by_cases h : p.1 = []
    · rw [if_pos h]; decide
    · rw [if_neg h]; exact mk_ne_empty (cleanChars_ne_nil _)
  · show 10 ≤ (if p.2 = [] then (⟨fallbackAt rnd⟩ : String) else ⟨cleanChars p.2⟩).length
    by_cases h : p.2 = []
    · rw [if_pos h]; exact fallbackAt_length rnd
    · rw [if_neg h]; exact cleanChars_length _

theorem csvFold_desc_empty (hM dM : List Char) :
    ∀ (lines : List (List Char)) (h : List Char),
      (∀ ln ∈ lines, listStartsWith dM (pyUpper (pyStrip ln)) = false) →
      ∃ h', csvFold hM dM (h, [], false) lines = (h', [], false) := by
  intro lines
  induction lines with
  | nil => exact fun h _ => ⟨h, rfl⟩
  | cons ln rest ih =>
      intro h hall
      have hln := hall ln (List.mem_cons_self _ _)
      have hrest := fun x hx => hall x (List.mem_cons_of_mem ln hx)
      show ∃ h', csvFold hM dM (stepC hM dM (h, [], false) ln) rest = _
      by_cases hb : pyStrip ln = []
      · have hs : stepC hM dM (h, [], false) ln = (h, [], false) := by
          unfold stepC
          rw [if_pos hb]
        rw [hs]
        exact ih h hrest
      · by_cases hh : listStartsWith hM (pyUpper (pyStrip ln)) = true
        · have hs : stepC hM dM (h, [], false) ln =
              (pyStrip ((pyStrip ln).drop hM.length), [], false) := by
            unfold stepC
            rw [if_neg hb, if_pos hh]
          rw [hs]
          exact ih _ hrest
        · have hs : stepC hM dM (h, [], false) ln = (h, [], false) := by
            unfold stepC
            rw [if_neg hb, if_neg (by simp_all), if_neg (by simp [hln])]
            rfl
          rw [hs]
          exact ih h hrest

/-- Claim C6 as amended: both parsers total and never return an empty
headline or description; the museum parser's description always has length at
least 10 (fallback or not); and in the CSV-enriched parser, when no line
matches the description marker the returned description is exactly the fixed
fallback `"Description not available."` (of length at least 10). In the
museum parser a description-label-free text can additionally yield, instead
of a fallback, text recovered from lines following a matched headline. -/
theorem claimC6_amended :
    (∀ text htag dtag : String,
      (parseCSV text htag dtag).1 ≠ "" ∧ (parseCSV text htag dtag).2 ≠ "") ∧
    (∀ (rnd : Nat) (text htag dtag : String),
      (parseMuseum rnd text htag dtag).1 ≠ "" ∧
      10 ≤ (parseMuseum rnd text htag dtag).2.length) ∧
    (∀ text htag dtag : String,
      (∀ ln ∈ linesOfText text,
        listStartsWith (mkMark dtag) (pyUpper (pyStrip ln)) = false) →
      (parseCSV text htag dtag).2 = "Description not available." ∧
      10 ≤ (parseCSV text htag dtag).2.length) := by
  refine ⟨fun text htag dtag => finalizeCSV_ne_empty _,
    fun rnd text htag dtag => finalizeMuseum_props rnd _, ?_⟩
  intro text htag dtag hall
  obtain ⟨h', hfold⟩ :=
    csvFold_desc_empty (mkMark htag) (mkMark dtag) (linesOfText text) [] hall
  have hpc : parseCSV text htag dtag = finalizeCSV (h', [], false) := by
    unfold parseCSV parseCSVLines
    rw [hfold]
  have h2 : (finalizeCSV (h', [], false)).2 = "Description not available." := by
    show (if pyStrip ((h', ([] : List Char), false)).2.1 = []
        then ("Description not available." : String)
        else ⟨pyStrip ((h', ([] : List Char), false)).2.1⟩) = "Description not available."
    rw [if_pos (show pyStrip ((h', ([] : List Char), false)).2.1 = [] from rfl)]
  rw [hpc, h2]
  exact ⟨rfl, by decide⟩

/-- Witness for claim C6 on a concrete description-label-free text. -/
theorem claimC6_witness :
    (parseCSV "hello" "HEADLINE" "DESCRIPTION").2 = "Description not available." ∧
    (parseCSV "" "HEADLINE" "DESCRIPTION").1 ≠ "" :=
  ⟨(claimC6_amended.2.2 "hello" "HEADLINE" "DESCRIPTION" (by decide)).1,
   (claimC6_amended.1 "" "HEADLINE" "DESCRIPTION").1⟩

/-!
## Claim C7

In the CSV-enriched parser an unlabeled line outside a description block is
discarded. In the museum parser this fails: after a headline has matched and
while the description is still empty, the next unlabeled line is promoted to
the description (`elif headline and not description`, line 194–195).
-/

theorem stepC_id_scanning {hM dM : List Char} {s : List Char × List Char × Bool}
    {x : List Char} (hflag : s.2.2 = false)
    (hh : listStartsWith hM (pyUpper (pyStrip x)) = false)
    (hd : listStartsWith dM (pyUpper (pyStrip x)) = false) :
    stepC hM dM s x = s := by
  unfold stepC
  by_cases hb : pyStrip x = []
  · rw [if_pos hb]
  · rw [if_neg hb, if_neg (by simp [hh]), if_neg (by simp [hd]), if_neg (by simp [hflag])]

theorem stepM_id_initial {hM dM x : List Char}
    (hh : listStartsWith hM (pyUpper (pyStrip x)) = false)
    (hd : listStartsWith dM (pyUpper (pyStrip x)) = false) :
    stepM hM dM ([], []) x = ([], []) := by
  unfold stepM
  rw [if_neg (by simp [hh]), if_neg (by simp [hd]), if_neg (by simp), if_neg (by simp)]

/-- Claim C7, counterexample (museum parser): after `HEADLINE:` matched the
parser is scanning (no description accumulating), the second line matches no
marker — the claim says it is discarded, but it becomes the description, and
deleting it changes the parse result. -/
theorem claimC7_counterexample :
    (parseMuseum 0 "HEADLINE: Great Bronze Statue\nrandom boilerplate line here"
        "HEADLINE" "DESCRIPTION").2 = "random boilerplate line here" ∧
    listStartsWith (mkMark "HEADLINE")
      (pyUpper (pyStrip "random boilerplate line here".data)) = false ∧
    listStartsWith (mkMark "DESCRIPTION")
      (pyUpper (pyStrip "random boilerplate line here".data)) = false ∧
    parseMuseum 0 "HEADLINE: Great Bronze Statue\nrandom boilerplate line here"
        "HEADLINE" "DESCRIPTION" ≠
      parseMuseum 0 "HEADLINE: Great Bronze Statue" "HEADLINE" "DESCRIPTION" := by
  exact ⟨by decide, by decide, by decide, by decide⟩

/-- Claim C7 as amended: for every language schema of the respective script's
`LANGUAGE_MAPPING` table, a line matching neither of the schema's markers —
matching modelled by the case mapping that covers the schemas' non-ASCII
letters — is discarded while scanning. In the CSV-enriched parser this holds
whenever `in_description` is false: deleting the line leaves the parse
unchanged. In the museum parser the same holds only in the initial scanning
state (no headline matched yet, description empty); once a headline has
matched, an unlabeled line is instead promoted to the description. -/
theorem claimC7_amended :
    (∀ (lang htag dtag : String) (L1 L2 : List (List Char)) (x : List Char),
      (lang, htag, dtag) ∈ LANGUAGE_MAPPING_CSV →
      (csvFold (mkMark htag) (mkMark dtag) ([], [], false) L1).2.2 = false →
      listStartsWith (mkMark htag) (pyUpper (pyStrip x)) = false →
      listStartsWith (mkMark dtag) (pyUpper (pyStrip x)) = false →
      parseCSVLines htag dtag (L1 ++ x :: L2) = parseCSVLines htag dtag (L1 ++ L2)) ∧
    (∀ (rnd : Nat) (lang htag dtag : String) (L1 L2 : List (List Char)) (x : List Char),
      (lang, htag, dtag) ∈ LANGUAGE_MAPPING_MUSEUM →
      museumFold (mkMark htag) (mkMark dtag) ([], []) L1 = ([], []) →
      listStartsWith (mkMark htag) (pyUpper (pyStrip x)) = false →
      listStartsWith (mkMark dtag) (pyUpper (pyStrip x)) = false →
      parseMuseumLines rnd htag dtag (L1 ++ x :: L2) =
        parseMuseumLines rnd htag dtag (L1 ++ L2)) := by
  constructor
  · intro lang htag dtag L1 L2 x hschema hflag hh hd
    unfold parseCSVLines
    congr 1
    have e1 : csvFold (mkMark htag) (mkMark dtag) ([], [], false) (L1 ++ x :: L2) =
        csvFold (mkMark htag) (mkMark dtag)
          (csvFold (mkMark htag) (mkMark dtag) ([], [], false) L1) (x :: L2) := by
      unfold csvFold
      rw [List.foldl_append]
    have e2 : csvFold (mkMark htag) (mkMark dtag) ([], [], false) (L1 ++ L2) =
        csvFold (mkMark htag) (mkMark dtag)
          (csvFold (mkMark htag) (mkMark dtag) ([], [], false) L1) L2 := by
      unfold csvFold
      rw [List.foldl_append]
    rw [e1, e2]
    show csvFold (mkMark htag) (mkMark dtag)
        (stepC (mkMark htag) (mkMark dtag)
          (csvFold (mkMark htag) (mkMark dtag) ([], [], false) L1) x) L2 = _
    rw [stepC_id_scanning hflag hh hd]
  · intro rnd lang htag dtag L1 L2 x hschema hfold hh hd
    unfold parseMuseumLines
    congr 1
    have e1 : museumFold (mkMark htag) (mkMark dtag) ([], []) (L1 ++ x :: L2) =
        museumFold (mkMark htag) (mkMark dtag)
          (museumFold (mkMark htag) (mkMark dtag) ([], []) L1) (x :: L2) := by
      unfold museumFold
      rw [List.foldl_append]
    have e2 : museumFold (mkMark htag) (mkMark dtag) ([], []) (L1 ++ L2) =
        museumFold (mkMark htag) (mkMark dtag)
          (museumFold (mkMark htag) (mkMark dtag) ([], []) L1) L2 := by
      unfold museumFold
      rw [List.foldl_append]
    rw [e1, e2, hfold]
    show museumFold (mkMark htag) (mkMark dtag)
        (stepM (mkMark htag) (mkMark dtag) ([], []) x) L2 = _
    rw [stepM_id_initial hh hd]

/-- Witness for claim C7: deleting a concrete unlabeled line leaves both
parsers' output unchanged in the discard situations, exercised on the English
CSV schema and the Lithuanian museum schema. -/
theorem claimC7_witness :
    parseCSVLines "HEADLINE" "DESCRIPTION"
        (["HEADLINE: Foo".data] ++ "noise line".data :: []) =
      parseCSVLines "HEADLINE" "DESCRIPTION" (["HEADLINE: Foo".data] ++ []) ∧
    parseMuseumLines 0 "ANTRAŠTĖ" "APRAŠYMAS" ([] ++ "noise line".data :: []) =
      parseMuseumLines 0 "ANTRAŠTĖ" "APRAŠYMAS" ([] ++ []) :=
  ⟨claimC7_amended.1 "English" "HEADLINE" "DESCRIPTION" ["HEADLINE: Foo".data] []
      "noise line".data (by decide) (by decide) (by decide) (by decide),
   claimC7_amended.2 0 "Lietuvių" "ANTRAŠTĖ" "APRAŠYMAS" [] [] "noise line".data
      (by decide) rfl (by decide) (by decide)⟩

/-!
## Claim C8

Unwanted-phrase stripping is case-insensitive and anchored at the start of
the field; a phrase occurring only mid-string leaves the loop output
untouched (the loop is the identity when no phrase is a case-insensitive
prefix).
-/

/-- Claim C8: (1) when the text begins, case-insensitively, with a phrase `p`
of the configured list (`ps1` being the earlier, non-matching phrases), the
loop removes the phrase occurrence and the subsequent leading punctuation and
continues with the remaining phrases; (2) when no phrase of the list is a
case-insensitive prefix, the loop leaves the text untouched; (3) in
particular the phrase-removal stage of `_clean_caption` is the identity on
every caption in which no unwanted phrase occurs as a prefix (mid-string
occurrences are untouched). -/
theorem claimC8_anchored_strip :
    (∀ (ps1 ps2 : List (List Char)) (p cap : List Char),
      (∀ q ∈ ps1, listStartsWith q (pyLower cap) = false) →
      listStartsWith p (pyLower cap) = true →
      stripLoopRun (ps1 ++ p :: ps2) cap (pyLower cap) =
        stripLoopRun ps2 (lstripPunct (pyStrip (cap.drop p.length)))
          (pyLower (pyStrip (cap.drop p.length)))) ∧
    (∀ (ps : List (List Char)) (cap : List Char),
      (∀ q ∈ ps, listStartsWith q (pyLower cap) = false) →
      stripLoopRun ps cap (pyLower cap) = cap) ∧
    (∀ text : List Char,
      (∀ q ∈ unwantedChars, listStartsWith q (pyLower (pyStrip text)) = false) →
      stripLoopRun unwantedChars (pyStrip text) (pyLower (pyStrip text)) = pyStrip text) := by
  have hcons : ∀ (p : List Char) (ps : List (List Char)) (cap capLow : List Char),
      stripLoopRun (p :: ps) cap capLow =
        if listStartsWith p capLow = true then
          stripLoopRun ps (lstripPunct (pyStrip (cap.drop p.length)))
            (pyLower (pyStrip (cap.drop p.length)))
        else stripLoopRun ps cap capLow := fun _ _ _ _ => rfl
  have pa : ∀ (ps1 ps2 : List (List Char)) (p cap : List Char),
      (∀ q ∈ ps1, listStartsWith q (pyLower cap) = false) →
      listStartsWith p (pyLower cap) = true →
      stripLoopRun (ps1 ++ p :: ps2) cap (pyLower cap) =
        stripLoopRun ps2 (lstripPunct (pyStrip (cap.drop p.length)))
          (pyLower (pyStrip (cap.drop p.length))) := by
    intro ps1
    induction ps1 with
    | nil =>
        intro ps2 p cap _ hp
        rw [List.nil_append, hcons, if_pos hp]
    | cons q ps1' ih =>
        intro ps2 p cap hps1 hp
        have hq := hps1 q (List.mem_cons_self _ _)
        rw [List.cons_append, hcons, if_neg (by simp [hq])]
        exact ih ps2 p cap (fun r hr => hps1 r (List.mem_cons_of_mem _ hr)) hp
  have pb : ∀ (ps : List (List Char)) (cap : List Char),
      (∀ q ∈ ps, listStartsWith q (pyLower cap) = false) →
      stripLoopRun ps cap (pyLower cap) = cap := by
    intro ps
    induction ps with
    | nil => intro cap _; rfl
    | cons q ps' ih =>
        intro cap h
        rw [hcons, if_neg (by simp [h q (List.mem_cons_self _ _)])]
        exact ih cap (fun r hr => h r (List.mem_cons_of_mem _ hr))
  exact ⟨pa, pb, fun text h => pb unwantedChars (pyStrip text) h⟩

/-- Witness for claim C8: a sentence-case Lithuanian phrase at the start of
the caption is recognised case-insensitively (`Š` lowers to `š`) and stripped
— the phrase list split at index 18 is exactly `UNWANTED_PHRASES`; the Polish
phrase `jest to` occurring only mid-string leaves the caption untouched. -/
theorem claimC8_witness :
    stripLoopRun (unwantedChars.take 18 ++
        "šis paveikslas rodo".data :: unwantedChars.drop 19)
        "Šis paveikslas rodo mažą puodą".data
        (pyLower "Šis paveikslas rodo mažą puodą".data) =
      stripLoopRun (unwantedChars.drop 19)
        (lstripPunct (pyStrip ("Šis paveikslas rodo mažą puodą".data.drop
          "šis paveikslas rodo".data.length)))
        (pyLower (pyStrip ("Šis paveikslas rodo mažą puodą".data.drop
          "šis paveikslas rodo".data.length))) ∧
    unwantedChars.take 18 ++ "šis paveikslas rodo".data :: unwantedChars.drop 19 =
      unwantedChars ∧
    stripLoopRun unwantedChars "a plain earthen pot, jest to inside".data
        (pyLower "a plain earthen pot, jest to inside".data) =
      "a plain earthen pot, jest to inside".data :=
  ⟨claimC8_anchored_strip.1 (unwantedChars.take 18) (unwantedChars.drop 19)
      "šis paveikslas rodo".data "Šis paveikslas rodo mažą puodą".data
      (by decide) (by decide),
   by decide,
   claimC8_anchored_strip.2.1 unwantedChars "a plain earthen pot, jest to inside".data
      (by decide)⟩

/-!
## Claim C10

Both parsers keep the value of the **last** line carrying a given label: a
later labeled line overwrites the stored value, and for the description label
it also replaces whatever continuation text had accumulated.
-/

/-- Claim C10: processing a description-labeled line makes the remaining
parse independent of the previously accumulated description (and, in the CSV
variant, of the `in_description` flag); processing a headline-labeled line
makes it independent of the previously stored headline — i.e. each later
labeled line overwrites the earlier value, discarding accumulated
continuations. Stated for the CSV-enriched fold (parts 1–2) and the museum
fold (parts 3–4). -/
theorem claimC10_last_label_wins :
    (∀ (hM dM h d1 d2 x : List Char) (b1 b2 : Bool) (rest : List (List Char)),
      pyStrip x ≠ [] →
      listStartsWith hM (pyUpper (pyStrip x)) = false →
      listStartsWith dM (pyUpper (pyStrip x)) = true →
      csvFold hM dM (h, d1, b1) (x :: rest) = csvFold hM dM (h, d2, b2) (x :: rest)) ∧
    (∀ (hM dM h1 h2 d x : List Char) (b : Bool) (rest : List (List Char)),
      pyStrip x ≠ [] →
      listStartsWith hM (pyUpper (pyStrip x)) = true →
      csvFold hM dM (h1, d, b) (x :: rest) = csvFold hM dM (h2, d, b) (x :: rest)) ∧
    (∀ (hM dM h d1 d2 x : List Char) (rest : List (List Char)),
      listStartsWith hM (pyUpper (pyStrip x)) = false →
      listStartsWith dM (pyUpper (pyStrip x)) = true →
      museumFold hM dM (h, d1) (x :: rest) = museumFold hM dM (h, d2) (x :: rest)) ∧
    (∀ (hM dM h1 h2 d x : List Char) (rest : List (List Char)),
      listStartsWith hM (pyUpper (pyStrip x)) = true →
      museumFold hM dM (h1, d) (x :: rest) = museumFold hM dM (h2, d) (x :: rest)) := by
  refine ⟨?_, ?_, ?_, ?_⟩
  · intro hM dM h d1 d2 x b1 b2 rest hne hh hd
    show csvFold hM dM (stepC hM dM (h, d1, b1) x) rest =
      csvFold hM dM (stepC hM dM (h, d2, b2) x) rest
    have e1 : stepC hM dM (h, d1, b1) x =
        (h, pyStrip ((pyStrip x).drop dM.length), true) := by
      unfold stepC
      rw [if_neg hne, if_neg (by simp [hh]), if_pos hd]
    have e2 : stepC hM dM (h, d2, b2) x =
        (h, pyStrip ((pyStrip x).drop dM.length), true) := by
      unfold stepC
      rw [if_neg hne, if_neg (by simp [hh]), if_pos hd]
    rw [e1, e2]
  · intro hM dM h1 h2 d x b rest hne hh
    show csvFold hM dM (stepC hM dM (h1, d, b) x) rest =
      csvFold hM dM (stepC hM dM (h2, d, b) x) rest
    have e1 : stepC hM dM (h1, d, b) x =
        (pyStrip ((pyStrip x).drop hM.length), d, false) := by
      unfold stepC
      rw [if_neg hne, if_pos hh]
    have e2 : stepC hM dM (h2, d, b) x =
        (pyStrip ((pyStrip x).drop hM.length), d, false) := by
      unfold stepC
      rw [if_neg hne, if_pos hh]
    rw [e1, e2]
  · intro hM dM h d1 d2 x rest hh hd
    show museumFold hM dM (stepM hM dM (h, d1) x) rest =
      museumFold hM dM (stepM hM dM (h, d2) x) rest
    have e1 : stepM hM dM (h, d1) x = (h, pyStrip ((pyStrip x).drop dM.length)) := by
      unfold stepM
      rw [if_neg (by simp [hh]), if_pos hd]
    have e2 : stepM hM dM (h, d2) x = (h, pyStrip ((pyStrip x).drop dM.length)) := by
      unfold stepM
      rw [if_neg (by simp [hh]), if_pos hd]
    rw [e1, e2]
  · intro hM dM h1 h2 d x rest hh
    show museumFold hM dM (stepM hM dM (h1, d) x) rest =
      museumFold hM dM (stepM hM dM (h2, d) x) rest
    have e1 : stepM hM dM (h1, d) x = (pyStrip ((pyStrip x).drop hM.length), d) := by
      unfold stepM
      rw [if_pos hh]
    have e2 : stepM hM dM (h2, d) x = (pyStrip ((pyStrip x).drop hM.length), d) := by
      unfold stepM
      rw [if_pos hh]
    rw [e1, e2]

/-- Witness for claim C10: a second `DESCRIPTION:` line wipes a previously
accumulated description, and a second `HEADLINE:` line wipes a previous
headline, in both folds. -/
theorem claimC10_witness :
    csvFold "HEADLINE:".data "DESCRIPTION:".data ("H".data, "old text".data, true)
        ["DESCRIPTION: new".data] =
      csvFold "HEADLINE:".data "DESCRIPTION:".data ("H".data, [], false)
        ["DESCRIPTION: new".data] ∧
    museumFold "HEADLINE:".data "DESCRIPTION:".data ("old".data, "d".data)
        ["HEADLINE: new".data] =
      museumFold "HEADLINE:".data "DESCRIPTION:".data ("fresh".data, "d".data)
        ["HEADLINE: new".data] :=
  ⟨claimC10_last_label_wins.1 "HEADLINE:".data "DESCRIPTION:".data "H".data
      "old text".data [] "DESCRIPTION: new".data true false [] (by decide) (by decide)
      (by decide),
   claimC10_last_label_wins.2.2.2 "HEADLINE:".data "DESCRIPTION:".data "old".data
      "fresh".data "d".data "HEADLINE: new".data [] (by decide)⟩

end MuseumPipeline


